import Mathlib

/-!
A shallow embedding of the work queue implemented in
`src/storage/innobase/ut/ut0wqueue.cc` (functions `ib_wqueue_create`,
`ib_wqueue_add`, `ib_wqueue_wait`, `ib_wqueue_timedwait`, `ib_wqueue_nowait`,
`ib_wqueue_is_empty`, `ib_wqueue_len`), together with theorems settling the
specification claims about it.

Work items are `void*` handles in the source; we model them as `Nat`, with
`0` standing for the null pointer, which is also the empty sentinel returned
by the non-blocking and timed pop operations.

The ordered sequence container (`ib_list_*`) and the wait signal
(`os_event_*`) are external collaborators of the queue: their code is not
part of this repository's sources, so they are modelled from the spec's
interface description (spec sections 1, 3 and 6).  The list is a FIFO
sequence with tail insertion and head removal; the event is a level-triggered
condition with a set/clear state and a monotone generation counter: `set`
raises the level and bumps the generation, `reset` clears the level and
returns the current generation.

Blocking control flow (`ib_wqueue_wait`'s retry loop, `ib_wqueue_timedwait`'s
wait-with-timeout loop) is modelled by (a) a step function for one
lock-protected iteration body, and (b) for the timed wait, a run function
driven by an explicit environment recording the outcome of each blocking
`os_event_wait_time_low` call (timeout, or woken with the queue in some new
state left by other threads).  Concurrency is modelled by interleaving the
atomic lock-protected critical sections in an arbitrary order (spec section 5:
all reads and mutations of `items` happen under the single lock), via a trace
semantics `runTrace`.
-/

/-- Work item handles (`void*` in the source). -/
abbrev Ptr := Nat

/-- The null pointer, used by the source both as an absent work item and as
the empty sentinel returned by `ib_wqueue_timedwait` and
`ib_wqueue_nowait`. -/
def NULL : Ptr := 0

/-- Modelled from the spec: the level-triggered wait signal (`os_event_t`),
"a level-triggered wait condition with two states, set and clear, plus an
internal monotonically increasing generation counter". -/
structure os_event_t where
  is_set : Bool
  sig_count : Nat
deriving Repr, DecidableEq

/-- Modelled from the spec: `os_event_create(0)` yields a signal in the
clear state (the queue starts empty and the signal is clear when the queue
is empty). -/
def os_event_create : os_event_t := ⟨false, 0⟩

/-- Modelled from the spec: `os_event_set` raises the signal to the set
state and bumps the generation counter ("a monotonically increasing value
bumped on every signal-raising event"). -/
def os_event_set (e : os_event_t) : os_event_t :=
  ⟨true, e.sig_count + 1⟩

/-- Modelled from the spec: `os_event_reset` resets the signal to the clear
state and returns the current generation count, to be compared against later
generations by the timed wait. -/
def os_event_reset (e : os_event_t) : Nat × os_event_t :=
  (e.sig_count, ⟨false, e.sig_count⟩)

/-- The work queue (`ib_wqueue_t`): the ordered item sequence and the wait
signal.  The mutex has no data content; its acquire/release actions are
tracked separately where a claim is about them (see `MAction`). -/
structure ib_wqueue_t where
  items : List Ptr
  event : os_event_t
deriving Repr, DecidableEq

/-- `ib_wqueue_create`: a new empty queue with a fresh (clear) event. -/
def ib_wqueue_create : ib_wqueue_t :=
  { items := [], event := os_event_create }

/-- Mutex actions performed by an operation, recorded in order. -/
inductive MAction where
  | lock
  | unlock
deriving Repr, DecidableEq

/-- `ib_wqueue_add(wq, item, heap, wq_locked)`: if not already locked,
acquire the mutex; append `item` at the tail of `items`
(`ib_list_add_last`); set the event; if not already locked, release the
mutex.  The `heap` parameter only feeds node allocation and has no
behavioural content here.  Returns the new queue state together with the
list of mutex actions performed. -/
def ib_wqueue_add (wq : ib_wqueue_t) (item : Ptr) (wq_locked : Bool) :
    ib_wqueue_t × List MAction :=
  let pre := if wq_locked then [] else [MAction.lock]
  let wq' : ib_wqueue_t :=
    { items := wq.items ++ [item], event := os_event_set wq.event }
  let post := if wq_locked then [] else [MAction.unlock]
  (wq', pre ++ post)

/-- One iteration body of `ib_wqueue_wait`'s loop, from `mysql_mutex_lock`
to either `break` (returning the removed item) or the retry
`mysql_mutex_unlock`: take the first node; if there is one, remove it and,
if the list is now empty, reset the event, then return the node's data;
otherwise (`none`) release the mutex and go back to waiting on the event. -/
def ib_wqueue_wait_step (wq : ib_wqueue_t) : Option (Ptr × ib_wqueue_t) :=
  match wq.items with
  | [] => none
  | d :: rest =>
      let ev := if rest.isEmpty then (os_event_reset wq.event).2 else wq.event
      some (d, { items := rest, event := ev })

/-- Outcome of one iteration body of `ib_wqueue_timedwait`'s loop. -/
inductive TimedStep where
  /-- A first node existed: it was removed (the event untouched) and its
  data is returned after unlocking. -/
  | found (item : Ptr) (wq : ib_wqueue_t)
  /-- The list was empty: the event was reset, capturing `sig_count`, and
  after unlocking the caller proceeds to `os_event_wait_time_low`. -/
  | toWait (sig_count : Nat) (wq : ib_wqueue_t)
deriving Repr, DecidableEq

/-- One iteration body of `ib_wqueue_timedwait`'s loop, from
`mysql_mutex_lock` to the unlock: if a first node exists, remove it and
break out with it — the event is not touched on this path; otherwise
reset the event (capturing the generation count) and go wait. -/
def ib_wqueue_timedwait_step (wq : ib_wqueue_t) : TimedStep :=
  match wq.items with
  | d :: rest => .found d { wq with items := rest }
  | [] =>
      let r := os_event_reset wq.event
      .toWait r.1 { wq with event := r.2 }

/-- Outcome of one blocking `os_event_wait_time_low` call, supplied by the
environment: either the wait timed out (`OS_SYNC_TIME_EXCEEDED`), or the
caller was woken (generation change) with the queue meanwhile driven to some
new state by other threads. -/
inductive WaitRes where
  | timeExceeded
  | woken (wq : ib_wqueue_t)
deriving Repr, DecidableEq

/-- `ib_wqueue_timedwait(wq, wait_in_usecs)`, run against an explicit
environment listing the outcome of each blocking wait it performs: loop;
if a first node exists, remove it, break, and return its data (which is
`NULL` only when the stored handle itself is null); otherwise reset the
event and wait — on timeout break with `node = NULL` and return `NULL`,
on wakeup loop again on the state the environment left.  `none` means the
environment list ran out before the call returned (the call is still
looping). -/
def ib_wqueue_timedwait_run : List WaitRes → ib_wqueue_t → Option (Ptr × ib_wqueue_t)
  | [], wq =>
      match ib_wqueue_timedwait_step wq with
      | .found d wq' => some (d, wq')
      | .toWait _ _ => none
  | res :: env', wq =>
      match ib_wqueue_timedwait_step wq with
      | .found d wq' => some (d, wq')
      | .toWait _ wq' =>
          match res with
          | .timeExceeded => some (NULL, wq')
          | .woken wq2 => ib_wqueue_timedwait_run env' wq2

/-- `ib_wqueue_nowait(wq)`: lock; if the list is non-empty, take the first
node and remove it; then — whether or not anything was removed — if the
list is (now) empty, reset the event; unlock; return the removed node's
data, or `NULL` when no node was removed. -/
def ib_wqueue_nowait (wq : ib_wqueue_t) : Ptr × ib_wqueue_t :=
  let nr : Option Ptr × List Ptr :=
    if wq.items.isEmpty then (none, wq.items)
    else
      match wq.items with
      | d :: rest => (some d, rest)
      | [] => (none, wq.items)
  let ev := if nr.2.isEmpty then (os_event_reset wq.event).2 else wq.event
  (match nr.1 with
   | some d => d
   | none => NULL,
   { items := nr.2, event := ev })

/-- `ib_wqueue_is_empty(wq)`: emptiness of the item list, read under the
mutex. -/
def ib_wqueue_is_empty (wq : ib_wqueue_t) : Bool :=
  wq.items.isEmpty

/-- `ib_wqueue_len(wq)`: number of items on the queue, read under the
mutex. -/
def ib_wqueue_len (wq : ib_wqueue_t) : Nat :=
  wq.items.length

/-- Which pop variant a consumer runs. -/
inductive PopKind where
  | wait
  | timed
  | nowait
deriving Repr, DecidableEq

/-- One atomic lock-protected pop attempt of the given variant: the result
is `some d` exactly when this attempt actually removed an item `d` from the
list, `none` when the queue was empty (the blocking variants would then go
back to waiting; `ib_wqueue_nowait` returns its sentinel). -/
def doPop : PopKind → ib_wqueue_t → Option Ptr × ib_wqueue_t
  | .wait, wq =>
      match ib_wqueue_wait_step wq with
      | some (d, wq') => (some d, wq')
      | none => (none, wq)
  | .timed, wq =>
      match ib_wqueue_timedwait_step wq with
      | .found d wq' => (some d, wq')
      | .toWait _ wq' => (none, wq')
  | .nowait, wq =>
      let r := ib_wqueue_nowait wq
      (if wq.items.isEmpty then none else some r.1, r.2)

/-- Run a list of pop attempts in order, collecting the actually removed
items. -/
def runPops : List PopKind → ib_wqueue_t → List Ptr × ib_wqueue_t
  | [], wq => ([], wq)
  | k :: ks, wq =>
      let r := doPop k wq
      let rs := runPops ks r.2
      (match r.1 with
       | some d => d :: rs.1
       | none => rs.1,
       rs.2)

/-- Push the items of `l` in order with `ib_wqueue_add` (not already
locked). -/
def pushAll (wq : ib_wqueue_t) (l : List Ptr) : ib_wqueue_t :=
  l.foldl (fun q it => (ib_wqueue_add q it false).1) wq

/-- An atomic event of a concurrent execution: a producer's push, or a pop
attempt by the consumer with the given identifier.  Each such event is one
lock-protected critical section; interleaving them in an arbitrary order is
the concurrency model, since every read and mutation of `items` happens
under the single mutex. -/
inductive Ev where
  | push (item : Ptr)
  | pop (consumer : Nat) (kind : PopKind)
deriving Repr, DecidableEq

/-- State of a concurrent execution: the queue, the items pushed so far in
order, and the successful pops so far in order as (consumer, item) pairs. -/
structure TraceState where
  wq : ib_wqueue_t
  pushed : List Ptr
  delivered : List (Nat × Ptr)
deriving Repr, DecidableEq

/-- Effect of one atomic event on the execution state. -/
def stepEv (s : TraceState) : Ev → TraceState
  | .push it =>
      { s with
        wq := (ib_wqueue_add s.wq it false).1
        pushed := s.pushed ++ [it] }
  | .pop c k =>
      let r := doPop k s.wq
      { s with
        wq := r.2
        delivered :=
          match r.1 with
          | some d => s.delivered ++ [(c, d)]
          | none => s.delivered }

/-- The initial execution state: a freshly created queue, nothing pushed,
nothing delivered. -/
def initState : TraceState :=
  { wq := ib_wqueue_create, pushed := [], delivered := [] }

/-- Run a trace of atomic events from the initial state. -/
def runTrace (evs : List Ev) : TraceState :=
  evs.foldl stepEv initState

/-! ## Helper lemmas -/

theorem doPop_of_items_nil (k : PopKind) (wq : ib_wqueue_t) (h : wq.items = []) :
    (doPop k wq).1 = none ∧ (doPop k wq).2.items = [] := by
  cases k <;>
    simp [doPop, ib_wqueue_wait_step, ib_wqueue_timedwait_step, ib_wqueue_nowait, h]

theorem doPop_of_items_cons (k : PopKind) (wq : ib_wqueue_t) (d : Ptr)
    (rest : List Ptr) (h : wq.items = d :: rest) :
    (doPop k wq).1 = some d ∧ (doPop k wq).2.items = rest := by
  cases k <;>
    simp [doPop, ib_wqueue_wait_step, ib_wqueue_timedwait_step, ib_wqueue_nowait, h]

theorem pushAll_items (l : List Ptr) (wq : ib_wqueue_t) :
    (pushAll wq l).items = wq.items ++ l := by
  induction l generalizing wq with
  | nil => simp [pushAll]
  | cons x xs ih =>
      show (pushAll (ib_wqueue_add wq x false).1 xs).items = wq.items ++ x :: xs
      rw [ih]
      simp [ib_wqueue_add]

theorem runPops_spec (ks : List PopKind) (wq : ib_wqueue_t) :
    (runPops ks wq).1 = wq.items.take ks.length ∧
    (runPops ks wq).2.items = wq.items.drop ks.length := by
  induction ks generalizing wq with
  | nil => simp [runPops]
  | cons k ks ih =>
      cases hi : wq.items with
      | nil =>
          have h := doPop_of_items_nil k wq hi
          have ih' := ih (doPop k wq).2
          simp [runPops, h.1, h.2, hi] at ih' ⊢
          exact ih'
      | cons d rest =>
          have h := doPop_of_items_cons k wq d rest hi
          have ih' := ih (doPop k wq).2
          simp [runPops, h.1, h.2, hi] at ih' ⊢
          exact ih'

theorem stepEv_inv (s : TraceState) (e : Ev)
    (h : s.delivered.map Prod.snd ++ s.wq.items = s.pushed) :
    (stepEv s e).delivered.map Prod.snd ++ (stepEv s e).wq.items =
      (stepEv s e).pushed := by
  cases e with
  | push it =>
      simp [stepEv, ib_wqueue_add, ← h]
  | pop c k =>
      cases hi : s.wq.items with
      | nil =>
          have hd := doPop_of_items_nil k s.wq hi
          simp [stepEv, hd.1, hd.2, ← h, hi]
      | cons d rest =>
          have hd := doPop_of_items_cons k s.wq d rest hi
          simp [stepEv, hd.1, hd.2, ← h, hi]

theorem runTrace_inv (evs : List Ev) :
    (runTrace evs).delivered.map Prod.snd ++ (runTrace evs).wq.items =
      (runTrace evs).pushed := by
  suffices h : ∀ (s : TraceState),
      s.delivered.map Prod.snd ++ s.wq.items = s.pushed →
      (evs.foldl stepEv s).delivered.map Prod.snd ++ (evs.foldl stepEv s).wq.items =
        (evs.foldl stepEv s).pushed by
    exact h initState (by simp [initState, ib_wqueue_create])
  induction evs with
  | nil => intro s hs; simpa using hs
  | cons e es ih =>
      intro s hs
      exact ih (stepEv s e) (stepEv_inv s e hs)

/-! ## Claim theorems -/

/-- C3: one iteration of `ib_wqueue_wait` retries (releasing the mutex)
when `items` has no head; when it has one, it removes exactly that head and
resets the event exactly when its own removal leaves the list empty; and it
returns an item only when that item was removed from `items` by this very
iteration. -/
theorem C3_wait_pop_removes_head_and_resets_on_drain (wq : ib_wqueue_t) :
    (wq.items = [] → ib_wqueue_wait_step wq = none) ∧
    (∀ d rest, wq.items = d :: rest →
      ib_wqueue_wait_step wq =
        some (d, { items := rest,
                   event := if rest.isEmpty then ⟨false, wq.event.sig_count⟩
                            else wq.event })) ∧
    (∀ d wq', ib_wqueue_wait_step wq = some (d, wq') →
      wq.items = d :: wq'.items) := by
  refine ⟨?_, ?_, ?_⟩
  · intro h
    simp [ib_wqueue_wait_step, h]
  · intro d rest h
    simp [ib_wqueue_wait_step, h, os_event_reset]
  · intro d wq' h
    cases hi : wq.items with
    | nil => simp [ib_wqueue_wait_step, hi] at h
    | cons a rest =>
        simp [ib_wqueue_wait_step, hi] at h
        obtain ⟨rfl, rfl⟩ := h
        rfl

theorem C3_witness :
    ib_wqueue_wait_step { items := [2], event := ⟨true, 1⟩ } =
      some (2, { items := [], event := ⟨false, 1⟩ }) := by
  have h := (C3_wait_pop_removes_head_and_resets_on_drain
    ⟨[2], ⟨true, 1⟩⟩).2.1 2 [] rfl
  simpa using h

/-- C4: pushing P1..Pn from a single thread onto a fresh queue and then
performing n pop attempts, in any mix of the three variants, returns the
items in exactly the order P1..Pn. -/
theorem C4_fifo_order (l : List Ptr) (ks : List PopKind)
    (h : ks.length = l.length) :
    (runPops ks (pushAll ib_wqueue_create l)).1 = l := by
  have hp : (pushAll ib_wqueue_create l).items = l := by
    simp [pushAll_items, ib_wqueue_create]
  rw [(runPops_spec ks (pushAll ib_wqueue_create l)).1, hp, h, List.take_length]

theorem C4_witness :
    (runPops [PopKind.wait, PopKind.timed, PopKind.nowait]
      (pushAll ib_wqueue_create [5, 6, 7])).1 = [5, 6, 7] :=
  C4_fifo_order [5, 6, 7] [PopKind.wait, PopKind.timed, PopKind.nowait]
    (by decide)

/-- C6: `ib_wqueue_add` appends the item at the tail of `items`, leaves the
event set, and performs exactly a lock followed by an unlock when
`wq_locked` is false and no mutex action at all when it is true. -/
theorem C6_add_appends_sets_signal_and_locks_symmetrically
    (wq : ib_wqueue_t) (item : Ptr) (locked : Bool) :
    (ib_wqueue_add wq item locked).1.items = wq.items ++ [item] ∧
    (ib_wqueue_add wq item locked).1.event.is_set = true ∧
    (ib_wqueue_add wq item locked).2 =
      (if locked then [] else [MAction.lock, MAction.unlock]) := by
  cases locked <;> simp [ib_wqueue_add, os_event_set]

/-- C7: after a push the length has grown by one and the queue is
non-empty; a pop (of any variant) that removes the only item leaves length
0 and emptiness true; and the concrete scenario push 1 ("A"), push 2 ("B"),
then three `ib_wqueue_nowait` calls returns 1, then 2, then the sentinel,
with lengths 2, 1, 0 along the way. -/
theorem C7_length_and_emptiness_consistency (wq : ib_wqueue_t) :
    (∀ item locked,
      ib_wqueue_len (ib_wqueue_add wq item locked).1 = ib_wqueue_len wq + 1 ∧
      ib_wqueue_is_empty (ib_wqueue_add wq item locked).1 = false) ∧
    (∀ d, wq.items = [d] → ∀ k,
      (doPop k wq).1 = some d ∧
      ib_wqueue_len (doPop k wq).2 = 0 ∧
      ib_wqueue_is_empty (doPop k wq).2 = true) ∧
    (let q2 := (ib_wqueue_add (ib_wqueue_add ib_wqueue_create 1 false).1
                  2 false).1
     let r1 := ib_wqueue_nowait q2
     let r2 := ib_wqueue_nowait r1.2
     let r3 := ib_wqueue_nowait r2.2
     ib_wqueue_len q2 = 2 ∧ r1.1 = 1 ∧ ib_wqueue_len r1.2 = 1 ∧
     r2.1 = 2 ∧ ib_wqueue_len r2.2 = 0 ∧ ib_wqueue_is_empty r2.2 = true ∧
     r3.1 = NULL ∧ (doPop PopKind.nowait r2.2).1 = none) := by
  refine ⟨?_, ?_, by decide⟩
  · intro item locked
    simp [ib_wqueue_len, ib_wqueue_is_empty, ib_wqueue_add]
  · intro d hd k
    have h := doPop_of_items_cons k wq d [] hd
    exact ⟨h.1, by simp [ib_wqueue_len, h.2], by simp [ib_wqueue_is_empty, h.2]⟩

theorem C7_witness :
    (doPop PopKind.nowait { items := [9], event := ⟨true, 1⟩ }).1 = some 9 ∧
    ib_wqueue_len (doPop PopKind.nowait { items := [9], event := ⟨true, 1⟩ }).2 = 0 ∧
    ib_wqueue_is_empty (doPop PopKind.nowait { items := [9], event := ⟨true, 1⟩ }).2 = true :=
  (C7_length_and_emptiness_consistency ⟨[9], ⟨true, 1⟩⟩).2.1 9 rfl PopKind.nowait

/-- C9: a queue whose head handle is the null pointer has that item removed
by `ib_wqueue_nowait` and `ib_wqueue_timedwait`, yet both return `NULL` —
the very value they return for an empty queue and for a timeout, so a
delivered null work item is indistinguishable from the empty sentinel at
the interface. -/
theorem C9_null_item_indistinguishable_from_sentinel
    (wq : ib_wqueue_t) (rest : List Ptr) (h : wq.items = NULL :: rest) :
    (ib_wqueue_nowait wq).1 = NULL ∧
    (ib_wqueue_nowait wq).2.items = rest ∧
    (∀ env, ib_wqueue_timedwait_run env wq =
      some (NULL, { items := rest, event := wq.event })) ∧
    (ib_wqueue_nowait ib_wqueue_create).1 = NULL ∧
    ib_wqueue_timedwait_run [WaitRes.timeExceeded] ib_wqueue_create =
      some (NULL, { items := [], event := ⟨false, 0⟩ }) := by
  refine ⟨?_, ?_, ?_, by decide, by decide⟩
  · simp [ib_wqueue_nowait, h, NULL]
  · simp [ib_wqueue_nowait, h]
  · intro env
    have hs : ib_wqueue_timedwait_step wq =
        TimedStep.found NULL { items := rest, event := wq.event } := by
      cases wq with
      | mk items event => cases h; rfl
    cases env <;> simp [ib_wqueue_timedwait_run, hs]

theorem C9_witness :
    (ib_wqueue_nowait { items := [0], event := ⟨true, 1⟩ }).1 = NULL ∧
    (ib_wqueue_nowait { items := [0], event := ⟨true, 1⟩ }).2.items = [] :=
  ⟨(C9_null_item_indistinguishable_from_sentinel ⟨[0], ⟨true, 1⟩⟩ [] rfl).1,
   (C9_null_item_indistinguishable_from_sentinel ⟨[0], ⟨true, 1⟩⟩ [] rfl).2.1⟩

/-- C10: when `ib_wqueue_timedwait` finds a head item on its first lock
acquisition, it removes and returns it without touching the event — in
particular, when the removal empties the queue the event keeps whatever
(possibly set) state it had. -/
theorem C10_timedwait_found_leaves_signal_untouched
    (wq : ib_wqueue_t) (d : Ptr) (rest : List Ptr)
    (h : wq.items = d :: rest) :
    ib_wqueue_timedwait_step wq =
      TimedStep.found d { items := rest, event := wq.event } ∧
    ∀ env, ib_wqueue_timedwait_run env wq =
      some (d, { items := rest, event := wq.event }) := by
  have hs : ib_wqueue_timedwait_step wq =
      TimedStep.found d { items := rest, event := wq.event } := by
    cases wq with
    | mk items event => cases h; rfl
  exact ⟨hs, fun env => by cases env <;> simp [ib_wqueue_timedwait_run, hs]⟩

theorem C10_witness :
    ib_wqueue_timedwait_run [] { items := [7], event := ⟨true, 3⟩ } =
      some (7, { items := [], event := ⟨true, 3⟩ }) :=
  (C10_timedwait_found_leaves_signal_untouched
    ⟨[7], ⟨true, 3⟩⟩ 7 [] rfl).2 []

theorem stepEv_reset_char (s : TraceState) (e : Ev)
    (hset : s.wq.event.is_set = true)
    (hclr : (stepEv s e).wq.event.is_set = false) :
    (∃ c k, e = Ev.pop c k) ∧ (stepEv s e).wq.items = [] := by
  cases e with
  | push it => simp [stepEv, ib_wqueue_add, os_event_set] at hclr
  | pop c k =>
      refine ⟨⟨c, k, rfl⟩, ?_⟩
      have hw : (stepEv s (Ev.pop c k)).wq = (doPop k s.wq).2 := rfl
      cases hi : s.wq.items with
      | nil =>
          rw [hw]
          exact (doPop_of_items_nil k s.wq hi).2
      | cons d rest =>
          cases rest with
          | nil =>
              rw [hw]
              exact (doPop_of_items_cons k s.wq d [] hi).2
          | cons d2 rest2 =>
              exfalso
              have hev : (doPop k s.wq).2.event = s.wq.event := by
                cases k <;>
                  simp [doPop, ib_wqueue_wait_step, ib_wqueue_timedwait_step,
                        ib_wqueue_nowait, hi]
              rw [hw, hev, hset] at hclr
              simp at hclr

/-- C1 (amended): over any reachable execution state, a set-to-clear
transition of the signal is caused only by a pop operation, and only one
after which the items sequence is empty — either because its own removal
drained the queue, or because `ib_wqueue_nowait` or `ib_wqueue_timedwait`
found the queue already empty and reset the signal without removing
anything; a push never clears the signal. -/
theorem C1_reset_only_by_pop_leaving_empty (evs : List Ev) (e : Ev)
    (hset : (runTrace evs).wq.event.is_set = true)
    (hclr : (stepEv (runTrace evs) e).wq.event.is_set = false) :
    (∃ c k, e = Ev.pop c k) ∧ (stepEv (runTrace evs) e).wq.items = [] :=
  stepEv_reset_char (runTrace evs) e hset hclr

theorem C1_witness :
    (∃ c k, Ev.pop 1 PopKind.nowait = Ev.pop c k) ∧
    (stepEv (runTrace [Ev.push 1, Ev.pop 0 PopKind.timed])
      (Ev.pop 1 PopKind.nowait)).wq.items = [] :=
  C1_reset_only_by_pop_leaving_empty [Ev.push 1, Ev.pop 0 PopKind.timed]
    (Ev.pop 1 PopKind.nowait) (by decide) (by decide)

/-- C1 counterexample: after push then a successful `ib_wqueue_timedwait`
removal, the queue is reachable with empty items and the signal still set;
a further `ib_wqueue_nowait` on it removes nothing (its delivered record is
unchanged) yet resets the signal — refuting the claim that the signal is
reset only by a pop call whose own removal of an item empties the
sequence. -/
theorem C1_counterexample :
    (runTrace [Ev.push 1, Ev.pop 0 PopKind.timed]).wq.items = [] ∧
    (runTrace [Ev.push 1, Ev.pop 0 PopKind.timed]).wq.event.is_set = true ∧
    (stepEv (runTrace [Ev.push 1, Ev.pop 0 PopKind.timed])
      (Ev.pop 1 PopKind.nowait)).delivered =
      (runTrace [Ev.push 1, Ev.pop 0 PopKind.timed]).delivered ∧
    (stepEv (runTrace [Ev.push 1, Ev.pop 0 PopKind.timed])
      (Ev.pop 1 PopKind.nowait)).wq.event.is_set = false := by
  decide

/-- C2 (amended): when `ib_wqueue_timedwait` finds the queue empty it
resets the signal — capturing the generation returned by that reset —
before releasing the lock and waiting, so a run that then times out
returns the `NULL` sentinel with the signal left clear; its successful
removal path, by contrast, never modifies the signal, even when the
removal drains the queue to empty. -/
theorem C2_timedwait_resets_before_wait (wq : ib_wqueue_t) :
    (wq.items = [] →
      ib_wqueue_timedwait_step wq =
        TimedStep.toWait wq.event.sig_count
          { items := [], event := ⟨false, wq.event.sig_count⟩ } ∧
      ∀ env, ib_wqueue_timedwait_run (WaitRes.timeExceeded :: env) wq =
        some (NULL, { items := [], event := ⟨false, wq.event.sig_count⟩ })) ∧
    (∀ d rest, wq.items = d :: rest →
      ib_wqueue_timedwait_step wq =
        TimedStep.found d { items := rest, event := wq.event }) := by
  constructor
  · intro h
    have hs : ib_wqueue_timedwait_step wq =
        TimedStep.toWait wq.event.sig_count
          { items := [], event := ⟨false, wq.event.sig_count⟩ } := by
      cases wq with
      | mk items event => cases h; rfl
    exact ⟨hs, fun env => by simp [ib_wqueue_timedwait_run, hs]⟩
  · intro d rest h
    cases wq with
    | mk items event => cases h; rfl

theorem C2_witness :
    ib_wqueue_timedwait_run [WaitRes.timeExceeded]
      { items := [], event := ⟨true, 5⟩ } =
      some (NULL, { items := [], event := ⟨false, 5⟩ }) :=
  ((C2_timedwait_resets_before_wait ⟨[], ⟨true, 5⟩⟩).1 rfl).2 []

/-- C2 counterexample: a successful `ib_wqueue_timedwait` removal reaches
the state with empty items and the signal still set (first conjunct); on
that state a timed-out `ib_wqueue_timedwait` returns the sentinel with the
signal reset to clear (second conjunct) — so the reset happened on the
timeout path, outside any successful removal, refuting the claim. -/
theorem C2_counterexample :
    ib_wqueue_timedwait_run [] (ib_wqueue_add ib_wqueue_create 1 false).1 =
      some (1, { items := [], event := ⟨true, 1⟩ }) ∧
    ib_wqueue_timedwait_run [WaitRes.timeExceeded]
      { items := [], event := ⟨true, 1⟩ } =
      some (NULL, { items := [], event := ⟨false, 1⟩ }) := by
  decide

/-- C5 (amended): `ib_wqueue_nowait` on an empty queue returns the `NULL`
sentinel with `items` unchanged but resets the signal to clear; on a
non-empty queue it removes the head, resets the signal exactly when the
removal leaves the sequence empty, and returns the removed item. -/
theorem C5_nowait_removes_head_or_returns_sentinel (wq : ib_wqueue_t) :
    (wq.items = [] →
      ib_wqueue_nowait wq =
        (NULL, { items := [], event := ⟨false, wq.event.sig_count⟩ })) ∧
    (∀ d rest, wq.items = d :: rest →
      ib_wqueue_nowait wq =
        (d, { items := rest,
              event := if rest.isEmpty then ⟨false, wq.event.sig_count⟩
                       else wq.event })) := by
  constructor
  · intro h
    simp [ib_wqueue_nowait, h, os_event_reset, NULL]
  · intro d rest h
    simp [ib_wqueue_nowait, h, os_event_reset]

theorem C5_witness :
    ib_wqueue_nowait { items := [4], event := ⟨true, 2⟩ } =
      (4, { items := [], event := ⟨false, 2⟩ }) := by
  have h := (C5_nowait_removes_head_or_returns_sentinel
    ⟨[4], ⟨true, 2⟩⟩).2 4 [] rfl
  simpa using h

/-- C5 counterexample: on an empty queue whose signal is set,
`ib_wqueue_nowait` returns the sentinel but does not leave the queue state
unchanged — it resets the signal — refuting the claim's unchanged-state
requirement for the empty case. -/
theorem C5_counterexample :
    ib_wqueue_nowait { items := [], event := ⟨true, 1⟩ } =
      (NULL, { items := [], event := ⟨false, 1⟩ }) ∧
    ({ items := [], event := ⟨true, 1⟩ } : ib_wqueue_t).event ≠
      (ib_wqueue_nowait { items := [], event := ⟨true, 1⟩ }).2.event := by
  decide

/-- C8: in any interleaved execution of atomic push and pop critical
sections, the successfully popped items followed by the remaining queue
contents are exactly the pushed items in order; hence when the pushed
items are pairwise distinct and the final queue is drained, the number of
successful pops across all consumers equals the number of pushes and every
pushed item occurs in exactly one successful pop — it is received by
exactly one consumer, never delivered twice. -/
theorem C8_each_item_delivered_exactly_once (evs : List Ev)
    (hnodup : (runTrace evs).pushed.Nodup)
    (hdrained : (runTrace evs).wq.items = []) :
    (runTrace evs).delivered.map Prod.snd = (runTrace evs).pushed ∧
    (runTrace evs).delivered.length = (runTrace evs).pushed.length ∧
    ∀ it ∈ (runTrace evs).pushed,
      ((runTrace evs).delivered.map Prod.snd).count it = 1 := by
  have hinv := runTrace_inv evs
  rw [hdrained, List.append_nil] at hinv
  refine ⟨hinv, ?_, ?_⟩
  · rw [← hinv, List.length_map]
  · intro it hit
    rw [hinv]
    exact List.count_eq_one_of_mem hnodup hit

theorem C8_witness :
    (runTrace [Ev.push 1, Ev.pop 0 PopKind.wait, Ev.push 2,
      Ev.pop 1 PopKind.nowait]).delivered.length =
      (runTrace [Ev.push 1, Ev.pop 0 PopKind.wait, Ev.push 2,
        Ev.pop 1 PopKind.nowait]).pushed.length :=
  (C8_each_item_delivered_exactly_once
    [Ev.push 1, Ev.pop 0 PopKind.wait, Ev.push 2, Ev.pop 1 PopKind.nowait]
    (by decide) (by decide)).2.1
